import Mathlib

/-!
Verification of the Classic Mafia Draft backend (server core).

The definitions below are a shallow embedding of the server source:
`src/server/core/game.js` (deck, initial game state, Fisher-Yates shuffle),
the socket handlers of `src/socket/handlers.js` (START_DRAFT, PICK_CARD,
FORCE_PICK, UNLOCK_TRAY, MEMORIZED_ROLE, TOGGLE_ROLE_LOCK, the per-socket
rate-limit middleware), the broadcast projections of
`src/socket/broadcasters.js`, the wire crypto of `src/server/core/crypto.js`
and the sharded persistence of `src/server/core/state.js`
(saveState / loadState / upgradeDataSchema).

External library primitives (node `crypto` ciphers and HMAC, the
Reed-Solomon WASM engine, `Math.random`) are modelled as parameters; every
property assumed of them appears as an explicit hypothesis of the theorem
that needs it.
-/

/-- Card roles of the fixed 10-card deck (strings `Citizen`, `Sheriff`,
`Mafia`, `Don` in the source). -/
inductive RoleCard where
  | citizen
  | sheriff
  | mafia
  | don
deriving DecidableEq, Repr

/-- Connection roles (string enum in the source). -/
inductive ClientRole where
  | UNASSIGNED
  | PLAYER
  | JUDGE
  | ADMIN
  | STREAM
  | PENDING_STREAM
deriving DecidableEq, Repr

/-- Room lifecycle status (string enum in the source). -/
inductive Status where
  | PENDING
  | IN_PROGRESS
  | COMPLETED
deriving DecidableEq, Repr

/-- Deck constant `INITIAL_DECK` from `src/server/core/game.js`: 6 Citizen, 1 Sheriff,
2 Mafia, 1 Don. -/
def INITIAL_DECK : List RoleCard :=
  [.citizen, .citizen, .citizen, .citizen, .citizen, .citizen,
   .sheriff, .mafia, .mafia, .don]

/-- Per-room settings object (`settings` in `getInitialGameState`). -/
structure Settings where
  singleMode : Bool
deriving DecidableEq, Repr

/-- Per-room client counts (`clientCounts` in `getInitialGameState`). -/
structure ClientCounts where
  player : Nat
  judge : Nat
  stream : Nat
  admin : Nat
  unassigned : Nat
  pendingStream : Nat
deriving DecidableEq, Repr

/-- One entry of `gs.results` (`\x7brole, slotIndex\x7d`); the role is
`Option` because `gs.slots[slotIndex]` may be `undefined` in the source. -/
structure ResultEntry where
  role : Option RoleCard
  slotIndex : Int
deriving DecidableEq, Repr

/-- Runtime `GameState` of a room. `slots` is the slot-index-to-role object
(position `i` of the list is key `i`); `results` is an association list
keyed by seat, most recent assignment first (JS object overwrite). -/
structure GameState where
  status : Status
  slots : List RoleCard
  revealedSlots : List Int
  currentTurn : Nat
  results : List (Nat × ResultEntry)
  isTrayUnlocked : Bool
  isCardRevealed : Bool
  isDebugMode : Bool
  areRolesLocked : Bool
  draftStartTime : Option Nat
  settings : Settings
  clientCounts : ClientCounts
deriving DecidableEq, Repr

/-- Function `getInitialGameState()` from `src/server/core/game.js`. -/
def getInitialGameState : GameState where
  status := .PENDING
  slots := []
  revealedSlots := []
  currentTurn := 1
  results := []
  isTrayUnlocked := false
  isCardRevealed := false
  isDebugMode := false
  areRolesLocked := false
  draftStartTime := none
  settings := { singleMode := false }
  clientCounts :=
    { player := 0, judge := 0, stream := 0, admin := 0, unassigned := 0,
      pendingStream := 0 }

/-- JS destructuring swap
`[array[i], array[j]] = [array[j], array[i]]`; out-of-range indices leave
the list unchanged (they never occur in the shuffle below because
`Math.floor(Math.random() * n) < n`). -/
def swapAt2 (l : List α) (i j : Nat) : List α :=
  match l[i]?, l[j]? with
  | some a, some b => (l.set i b).set j a
  | _, _ => l

/-- Loop body of `shuffle` from `src/server/core/game.js`: while
`currentIndex ≠ 0`, draw `randomIndex` below `currentIndex`, decrement,
and swap the two positions.  `rand n` models
`Math.floor(Math.random() * n)`. -/
def fyLoop (rand : Nat → Nat) : List α → Nat → List α
  | l, 0 => l
  | l, n + 1 => fyLoop rand (swapAt2 l n (rand (n + 1))) n

/-- Function `shuffle(array)` from `src/server/core/game.js` (Fisher-Yates),
parametrised by the random draw. -/
def shuffle (rand : Nat → Nat) (l : List α) : List α :=
  fyLoop rand l l.length

theorem swapAt2_perm [DecidableEq α] (l : List α) (i j : Nat) :
    (swapAt2 l i j).Perm l := by
  unfold swapAt2
  cases hi : l[i]? with
  | none => exact List.Perm.refl l
  | some a =>
    cases hj : l[j]? with
    | none => exact List.Perm.refl l
    | some b =>
      obtain ⟨hi', ha⟩ := List.getElem?_eq_some.mp hi
      obtain ⟨hj', hb⟩ := List.getElem?_eq_some.mp hj
      rw [List.perm_iff_count]
      intro x
      have hjlen : j < (l.set i b).length := by simpa using hj'
      rw [List.count_set a x (l.set i b) j hjlen,
        List.count_set b x l i hi']
      have hsij : (l.set i b)[j] = if i = j then b else l[j] :=
        List.getElem_set (l := l) (m := i) (n := j) (a := b) hjlen
      have hmem : a ∈ l := ha ▸ List.getElem_mem hi'
      have hcount : a = x → 1 ≤ List.count x l := by
        intro hax
        exact List.count_pos_iff.mpr (hax ▸ hmem)
      by_cases hij : i = j
      · subst hij
        have hab : a = b := by rw [← ha, ← hb]
        subst hab
        rw [hsij, if_pos rfl, ha]
        by_cases hax : a = x
        · have h1 := hcount hax
          simp only [beq_iff_eq, hax, if_true, if_pos]
          omega
        · simp [beq_iff_eq, hax]
      · rw [hsij, if_neg hij, hb, ha]
        by_cases hax : a = x
        · have h1 := hcount hax
          by_cases hbx : b = x <;> simp [beq_iff_eq, hax, hbx] <;> omega
        · by_cases hbx : b = x <;> simp [beq_iff_eq, hax, hbx]

theorem fyLoop_perm [DecidableEq α] (rand : Nat → Nat) :
    ∀ (n : Nat) (l : List α), (fyLoop rand l n).Perm l := by
  intro n
  induction n with
  | zero => intro l; exact List.Perm.refl l
  | succ n ih =>
    intro l
    exact (ih (swapAt2 l n (rand (n + 1)))).trans (swapAt2_perm l n _)

theorem shuffle_perm [DecidableEq α] (rand : Nat → Nat) (l : List α) :
    (shuffle rand l).Perm l :=
  fyLoop_perm rand l.length l

/-- Index equivalence obtained by fixing index 0 and shifting an
equivalence of the tails. -/
def consEquiv {n m : Nat} (f : Fin n ≃ Fin m) : Fin (n + 1) ≃ Fin (m + 1) where
  toFun := fun i =>
    match i with
    | ⟨0, _⟩ => ⟨0, Nat.succ_pos m⟩
    | ⟨k + 1, h⟩ => ⟨(f ⟨k, Nat.lt_of_succ_lt_succ h⟩).val + 1,
        Nat.succ_lt_succ (f ⟨k, Nat.lt_of_succ_lt_succ h⟩).isLt⟩
  invFun := fun i =>
    match i with
    | ⟨0, _⟩ => ⟨0, Nat.succ_pos n⟩
    | ⟨k + 1, h⟩ => ⟨(f.symm ⟨k, Nat.lt_of_succ_lt_succ h⟩).val + 1,
        Nat.succ_lt_succ (f.symm ⟨k, Nat.lt_of_succ_lt_succ h⟩).isLt⟩
  left_inv := by
    intro i
    match i with
    | ⟨0, _⟩ => rfl
    | ⟨k + 1, h⟩ =>
      apply Fin.ext
      simp
  right_inv := by
    intro i
    match i with
    | ⟨0, _⟩ => rfl
    | ⟨k + 1, h⟩ =>
      apply Fin.ext
      simp

/-- Index equivalence exchanging positions 0 and 1. -/
def swapTwo (n : Nat) : Fin (n + 2) ≃ Fin (n + 2) where
  toFun := fun i =>
    match i with
    | ⟨0, _⟩ => ⟨1, Nat.succ_lt_succ (Nat.succ_pos n)⟩
    | ⟨1, _⟩ => ⟨0, Nat.succ_pos (n + 1)⟩
    | ⟨k + 2, h⟩ => ⟨k + 2, h⟩
  invFun := fun i =>
    match i with
    | ⟨0, _⟩ => ⟨1, Nat.succ_lt_succ (Nat.succ_pos n)⟩
    | ⟨1, _⟩ => ⟨0, Nat.succ_pos (n + 1)⟩
    | ⟨k + 2, h⟩ => ⟨k + 2, h⟩
  left_inv := by
    intro i
    match i with
    | ⟨0, _⟩ => rfl
    | ⟨1, _⟩ => rfl
    | ⟨k + 2, h⟩ => rfl
  right_inv := by
    intro i
    match i with
    | ⟨0, _⟩ => rfl
    | ⟨1, _⟩ => rfl
    | ⟨k + 2, h⟩ => rfl

theorem perm_exists_get_equiv {α : Type u_1} {l₁ l₂ : List α} (h : l₁.Perm l₂) :
    ∃ f : Fin l₁.length ≃ Fin l₂.length, ∀ i : Fin l₁.length,
      l₁.get i = l₂.get (f i) := by
  induction h with
  | nil => exact ⟨Equiv.refl _, fun i => i.elim0⟩
  | cons x h ih =>
    obtain ⟨f, hf⟩ := ih
    refine ⟨consEquiv f, ?_⟩
    intro i
    match i with
    | ⟨0, _⟩ => rfl
    | ⟨k + 1, h⟩ =>
      have := hf ⟨k, Nat.lt_of_succ_lt_succ h⟩
      simpa [consEquiv, List.get] using this
  | swap x y l =>
    refine ⟨swapTwo l.length, ?_⟩
    intro i
    match i with
    | ⟨0, _⟩ => rfl
    | ⟨1, _⟩ => rfl
    | ⟨k + 2, h⟩ => rfl
  | trans h₁ h₂ ih₁ ih₂ =>
    obtain ⟨f₁, hf₁⟩ := ih₁
    obtain ⟨f₂, hf₂⟩ := ih₂
    exact ⟨f₁.trans f₂, fun i => (hf₁ i).trans (hf₂ (f₁ i))⟩

/-- Registry entry of a connected client (`state.clients[socket.id]`),
restricted to the fields the draft handlers read. -/
structure Client where
  role : ClientRole
  roomId : Option String
deriving DecidableEq, Repr

/-- Session record (`state.sessions[deviceId]`), restricted to the fields
`TOGGLE_ROLE_LOCK` reads.  `assignedSeat` mirrors the JS field: absent or
`null` is `none`; note the source tests it for *truthiness*, so a stored
seat `0` also counts as unassigned there. -/
structure SessionRec where
  roomId : Option String
  role : ClientRole
  assignedSeat : Option Int
deriving DecidableEq, Repr

/-- Observable socket emissions of the draft handlers. -/
inductive Ev where
  | privateRoleReveal (role : Option RoleCard) (slotIndex : Int)
  | cardRevealed (seat : Nat) (role : Option RoleCard) (cardIndex : Int)
  | clearStream
  | closePlayerReveal
  | stateUpdate
  | adminError (msg : String)
deriving DecidableEq, Repr

/-- Validator `validatePayload(x, \x7b type: number, min, max \x7d)` from
`src/server/core/game.js`, for integral payloads. -/
def validatePayloadNum (lo hi : Int) (x : Int) : Bool :=
  lo ≤ x ∧ x ≤ hi

/-- JS lookup `gs.slots[slotIndex]` (an object keyed `0..9`): `undefined`
outside the populated range. -/
def slotLookup (slots : List RoleCard) (slotIndex : Int) : Option RoleCard :=
  if 0 ≤ slotIndex then slots[slotIndex.toNat]? else none

/-- Body of the `START_DRAFT` handler after its guards: shuffle a copy of
`INITIAL_DECK`, assign slot `i` the `i`-th shuffled card, and reset the
draft counters (status, revealedSlots, currentTurn, results, tray, card,
start timestamp). -/
def startDraftUpdate (rand : Nat → Nat) (now : Nat) (gs : GameState) : GameState :=
  { gs with
    status := .IN_PROGRESS
    slots := shuffle rand INITIAL_DECK
    revealedSlots := []
    currentTurn := 1
    results := []
    isTrayUnlocked := false
    isCardRevealed := false
    draftStartTime := some now }

/-- Handler `START_DRAFT` from `src/socket/handlers.js`: requires the
caller to be a JUDGE or ADMIN with a room id, and the room's roles to be
locked; returns `none` when rejected. -/
def startDraftHandler (c : Client) (gs : GameState) (rand : Nat → Nat)
    (now : Nat) : Option GameState :=
  if (c.role = ClientRole.JUDGE ∨ c.role = ClientRole.ADMIN) ∧ c.roomId ≠ none then
    if gs.areRolesLocked then some (startDraftUpdate rand now gs) else none
  else none

/-- Game-state part of the `PICK_CARD` handler (after payload validation and
room resolution): rejects unless the draft is `IN_PROGRESS` with the tray
unlocked and the slot unrevealed; otherwise reveals the slot, records the
result for the current seat, relocks the tray, marks a card displayed,
emits the private reveal (to the requester) and the public announcement,
and advances the turn — flipping to COMPLETED at turn 10. -/
def pickCardGS (slotIndex : Int) (gs : GameState) : Option (GameState × List Ev) :=
  if gs.status = Status.IN_PROGRESS ∧ gs.isTrayUnlocked then
    if slotIndex ∈ gs.revealedSlots then none
    else
      some
        ({ gs with
            revealedSlots := gs.revealedSlots ++ [slotIndex]
            results := (gs.currentTurn,
              ⟨slotLookup gs.slots slotIndex, slotIndex⟩) :: gs.results
            isTrayUnlocked := false
            isCardRevealed := true
            status := if gs.currentTurn ≥ 10 then Status.COMPLETED else gs.status
            currentTurn := if gs.currentTurn ≥ 10 then gs.currentTurn
              else gs.currentTurn + 1 },
         [Ev.privateRoleReveal (slotLookup gs.slots slotIndex) slotIndex,
          Ev.cardRevealed gs.currentTurn (slotLookup gs.slots slotIndex) slotIndex])
  else none

/-- The literal `[0, 1, 2, 3, 4, 5, 6, 7, 8, 9]` of the `FORCE_PICK`
handler. -/
def allSlotsList : List Int := [0, 1, 2, 3, 4, 5, 6, 7, 8, 9]

/-- Game-state part of the `FORCE_PICK` handler (after the judge/admin and
room guards): rejects unless `IN_PROGRESS`, tray unlocked and no card
currently displayed; picks a random unrevealed slot (`rand % length` models
`Math.floor(Math.random() * length)`), then mutates exactly as a manual
pick.  The private reveal is routed to the seated players by the handler;
here it is recorded as the emitted reveal event. -/
def forcePickGS (rand : Nat) (gs : GameState) : Option (GameState × List Ev) :=
  if gs.status = Status.IN_PROGRESS ∧ gs.isTrayUnlocked ∧ ¬gs.isCardRevealed then
    match (allSlotsList.filter
        (fun s => decide (s ∉ gs.revealedSlots)))[rand % (allSlotsList.filter
          (fun s => decide (s ∉ gs.revealedSlots))).length]? with
    | none => none
    | some randomSlotIndex =>
      some
        ({ gs with
            revealedSlots := gs.revealedSlots ++ [randomSlotIndex]
            results := (gs.currentTurn,
              ⟨slotLookup gs.slots randomSlotIndex, randomSlotIndex⟩) :: gs.results
            isTrayUnlocked := false
            isCardRevealed := true
            status := if gs.currentTurn ≥ 10 then Status.COMPLETED else gs.status
            currentTurn := if gs.currentTurn ≥ 10 then gs.currentTurn
              else gs.currentTurn + 1 },
         [Ev.privateRoleReveal (slotLookup gs.slots randomSlotIndex) randomSlotIndex,
          Ev.cardRevealed gs.currentTurn (slotLookup gs.slots randomSlotIndex)
            randomSlotIndex])
  else none

/-- Handler body of `UNLOCK_TRAY` (judge/admin guard applied upstream): only
while `IN_PROGRESS`, unlock the tray and clear overlays. -/
def unlockTrayGS (gs : GameState) : GameState × List Ev :=
  if gs.status = Status.IN_PROGRESS then
    ({ gs with isTrayUnlocked := true }, [Ev.stateUpdate, Ev.clearStream])
  else (gs, [])

/-- Handler body of `MEMORIZED_ROLE`: unconditionally clears the
card-displayed flag and closes the displays. -/
def memorizedGS (gs : GameState) : GameState × List Ev :=
  ({ gs with isCardRevealed := false },
   [Ev.stateUpdate, Ev.clearStream, Ev.closePlayerReveal])

/-- Pick with its payload validation
(payload rules: type number, min 0, max 9). -/
def pickCardValidated (slotIndex : Int) (gs : GameState) :
    Option (GameState × List Ev) :=
  if validatePayloadNum 0 9 slotIndex then pickCardGS slotIndex gs else none

/-- Handler `PICK_CARD` from `src/socket/handlers.js` seen from a client:
validates the payload, requires only that the client's registry entry
carries a room id (no role or seat check), resolves the room, then runs
the game-state transition.  A registry entry pointing at a nonexistent
room performs no state mutation (in the source this would throw before
mutating anything). -/
def pickCardHandler (c : Client) (rooms : List (String × GameState))
    (slotIndex : Int) : Option (GameState × List Ev) :=
  if validatePayloadNum 0 9 slotIndex then
    c.roomId.bind (fun rid =>
      ((rooms.find? (fun p => p.1 = rid)).map Prod.snd).bind (fun gs =>
        pickCardGS slotIndex gs))
  else none

/-- One room-scoped draft event following a draft start (the enabling
`UNLOCK_TRAY` / `MEMORIZED_ROLE` events and the two pick events). -/
inductive Step where
  | unlockTray
  | memorized
  | pickCard (slot : Int)
  | forcePick (rand : Nat)
deriving DecidableEq, Repr

/-- Applies one step to a room's game state; the boolean records whether
the step was a *successful* pick (a rejected pick leaves the state
untouched). -/
def stepGS : Step → GameState → GameState × Bool
  | .unlockTray, gs => ((unlockTrayGS gs).1, false)
  | .memorized, gs => ((memorizedGS gs).1, false)
  | .pickCard s, gs =>
    match pickCardValidated s gs with
    | some r => (r.1, true)
    | none => (gs, false)
  | .forcePick r, gs =>
    match forcePickGS r gs with
    | some r2 => (r2.1, true)
    | none => (gs, false)

/-- Runs a sequence of draft events, returning the final game state and the
number of successful picks. -/
def runTrace : List Step → GameState → GameState × Nat
  | [], gs => (gs, 0)
  | st :: rest, gs =>
    let r := stepGS st gs
    let r2 := runTrace rest r.1
    (r2.1, (if r.2 then 1 else 0) + r2.2)

/-- Invariant of a room after `n` successful picks of a started draft. -/
def DraftInv (gs : GameState) (n : Nat) : Prop :=
  gs.revealedSlots.length = n ∧
  gs.revealedSlots.Nodup ∧
  (∀ s ∈ gs.revealedSlots, s ∈ allSlotsList) ∧
  n ≤ 10 ∧
  (n < 10 → gs.currentTurn = n + 1 ∧ gs.status = Status.IN_PROGRESS) ∧
  (n = 10 → gs.currentTurn = 10 ∧ gs.status = Status.COMPLETED)

theorem mem_allSlotsList (s : Int) : s ∈ allSlotsList ↔ 0 ≤ s ∧ s ≤ 9 := by
  simp [allSlotsList]
  omega

theorem pickFields_inv (gs gs' : GameState) (n : Nat) (s : Int)
    (h : DraftInv gs n) (hst : gs.status = Status.IN_PROGRESS)
    (hns : s ∉ gs.revealedSlots) (hbound : s ∈ allSlotsList)
    (h1 : gs'.revealedSlots = gs.revealedSlots ++ [s])
    (h2 : gs'.status = if gs.currentTurn ≥ 10 then Status.COMPLETED else gs.status)
    (h3 : gs'.currentTurn = if gs.currentTurn ≥ 10 then gs.currentTurn
      else gs.currentTurn + 1) :
    DraftInv gs' (n + 1) := by
  obtain ⟨hlen, hnd, hbd, hn, hlt, heq⟩ := h
  have hnlt : n < 10 := by
    rcases Nat.lt_or_ge n 10 with h' | h'
    · exact h'
    · have h10 : n = 10 := Nat.le_antisymm hn h'
      have := (heq h10).2
      rw [hst] at this
      exact absurd this (by simp)
  obtain ⟨hturn, _⟩ := hlt hnlt
  refine ⟨?_, ?_, ?_, ?_, ?_, ?_⟩
  · rw [h1]
    simp [hlen]
  · rw [h1]
    simp [List.nodup_append, hnd, hns]
  · rw [h1]
    intro x hx
    rcases List.mem_append.mp hx with hx' | hx'
    · exact hbd x hx'
    · simp at hx'
      exact hx' ▸ hbound
  · omega
  · intro hlt'
    have hto : ¬ gs.currentTurn ≥ 10 := by omega
    rw [h3, if_neg hto, h2, if_neg hto, hturn, hst]
    exact ⟨rfl, rfl⟩
  · intro he
    have h9 : n = 9 := by omega
    have hto : gs.currentTurn ≥ 10 := by omega
    rw [h3, if_pos hto, h2, if_pos hto, hturn, h9]
    exact ⟨rfl, rfl⟩

theorem stepGS_inv (st : Step) (gs : GameState) (n : Nat) (h : DraftInv gs n) :
    DraftInv (stepGS st gs).1 (n + if (stepGS st gs).2 then 1 else 0) := by
  obtain ⟨hlen, hnd, hbd, hn, hlt, heq⟩ := h
  cases st with
  | unlockTray =>
    simp only [stepGS, unlockTrayGS]
    by_cases hst : gs.status = Status.IN_PROGRESS
    · rw [if_pos hst]
      simpa using ⟨hlen, hnd, hbd, hn, hlt, heq⟩
    · rw [if_neg hst]
      simpa using ⟨hlen, hnd, hbd, hn, hlt, heq⟩
  | memorized =>
    simp only [stepGS, memorizedGS]
    simpa using ⟨hlen, hnd, hbd, hn, hlt, heq⟩
  | pickCard s =>
    cases hpv : pickCardValidated s gs with
    | none =>
      simp only [stepGS, hpv]
      simpa using ⟨hlen, hnd, hbd, hn, hlt, heq⟩
    | some pr =>
      simp only [stepGS, hpv, if_true]
      unfold pickCardValidated pickCardGS at hpv
      by_cases hv : validatePayloadNum 0 9 s
      · rw [if_pos hv] at hpv
        by_cases hg : gs.status = Status.IN_PROGRESS ∧ gs.isTrayUnlocked = true
        · rw [if_pos hg] at hpv
          by_cases hmem : s ∈ gs.revealedSlots
          · rw [if_pos hmem] at hpv
            exact absurd hpv (by simp)
          · rw [if_neg hmem] at hpv
            have hpr := (Option.some.inj hpv).symm
            have hbound : s ∈ allSlotsList := by
              rw [mem_allSlotsList]
              exact of_decide_eq_true hv
            refine pickFields_inv gs pr.1 n s
              ⟨hlen, hnd, hbd, hn, hlt, heq⟩ hg.1 hmem hbound ?_ ?_ ?_ <;>
              rw [hpr]
        · rw [if_neg hg] at hpv
          exact absurd hpv (by simp)
      · rw [if_neg hv] at hpv
        exact absurd hpv (by simp)
  | forcePick r =>
    cases hpv : forcePickGS r gs with
    | none =>
      simp only [stepGS, hpv]
      simpa using ⟨hlen, hnd, hbd, hn, hlt, heq⟩
    | some pr =>
      simp only [stepGS, hpv, if_true]
      unfold forcePickGS at hpv
      by_cases hg : gs.status = Status.IN_PROGRESS ∧ gs.isTrayUnlocked = true ∧
          ¬gs.isCardRevealed = true
      · rw [if_pos hg] at hpv
        cases hidx : (allSlotsList.filter
            (fun s => decide (s ∉ gs.revealedSlots)))[r % (allSlotsList.filter
              (fun s => decide (s ∉ gs.revealedSlots))).length]? with
        | none =>
          rw [hidx] at hpv
          exact absurd hpv (by simp)
        | some idx =>
          rw [hidx] at hpv
          have hpr := (Option.some.inj hpv).symm
          have hidxmem := List.getElem?_mem hidx
          have hfil := List.mem_filter.mp hidxmem
          have hbound : idx ∈ allSlotsList := hfil.1
          have hmem : idx ∉ gs.revealedSlots := of_decide_eq_true hfil.2
          refine pickFields_inv gs pr.1 n idx
            ⟨hlen, hnd, hbd, hn, hlt, heq⟩ hg.1 hmem hbound ?_ ?_ ?_ <;>
            rw [hpr]
      · rw [if_neg hg] at hpv
        exact absurd hpv (by simp)

theorem runTrace_inv (tr : List Step) (gs : GameState) (n : Nat)
    (h : DraftInv gs n) :
    DraftInv (runTrace tr gs).1 (n + (runTrace tr gs).2) := by
  induction tr generalizing gs n with
  | nil => simpa using h
  | cons st rest ih =>
    have h1 := stepGS_inv st gs n h
    have h2 := ih (stepGS st gs).1 _ h1
    simp only [runTrace]
    have harith : n + ((if (stepGS st gs).2 then 1 else 0) +
        (runTrace rest (stepGS st gs).1).2) =
        (n + if (stepGS st gs).2 then 1 else 0) +
        (runTrace rest (stepGS st gs).1).2 := by omega
    rw [harith]
    exact h2

/-- C1: every accepted `START_DRAFT` (judge/admin caller, room id present,
roles locked) produces a slot assignment with exactly one card on each of
the slots 0-9 whose role multiset is 6 Citizen, 1 Sheriff, 2 Mafia and
1 Don, the slot-to-card map being a bijection over the indices 0..9; the
draft restarts IN_PROGRESS with no revealed slot, `currentTurn = 1` and a
recorded start timestamp. -/
theorem startDraft_valid_assignment (c : Client) (gs gs' : GameState)
    (rand : Nat → Nat) (now : Nat)
    (hacc : startDraftHandler c gs rand now = some gs') :
    gs'.slots.length = 10 ∧
    (∀ i : Nat, i < 10 → (gs'.slots[i]?).isSome) ∧
    gs'.slots.count RoleCard.citizen = 6 ∧
    gs'.slots.count RoleCard.sheriff = 1 ∧
    gs'.slots.count RoleCard.mafia = 2 ∧
    gs'.slots.count RoleCard.don = 1 ∧
    gs'.slots.Perm INITIAL_DECK ∧
    (∃ f : Fin 10 ≃ Fin 10, ∀ i : Fin 10,
      gs'.slots[(i : Nat)]? = INITIAL_DECK[((f i : Fin 10) : Nat)]?) ∧
    gs'.status = Status.IN_PROGRESS ∧
    gs'.revealedSlots = [] ∧
    gs'.currentTurn = 1 ∧
    gs'.draftStartTime = some now := by
  unfold startDraftHandler at hacc
  by_cases h1 : (c.role = ClientRole.JUDGE ∨ c.role = ClientRole.ADMIN) ∧
      c.roomId ≠ none
  · rw [if_pos h1] at hacc
    by_cases h2 : gs.areRolesLocked = true
    · rw [if_pos h2] at hacc
      have hgs : gs' = startDraftUpdate rand now gs := (Option.some.inj hacc).symm
      subst hgs
      have hperm : (shuffle rand INITIAL_DECK).Perm INITIAL_DECK :=
        shuffle_perm rand INITIAL_DECK
      have hlen : (shuffle rand INITIAL_DECK).length = 10 := by
        rw [hperm.length_eq]
        rfl
      simp only [startDraftUpdate]
      refine ⟨hlen, ?_, ?_, ?_, ?_, ?_, hperm, ?_, trivial, trivial, trivial,
        trivial⟩
      · intro i hi
        have hi' : i < (shuffle rand INITIAL_DECK).length := by omega
        rw [List.getElem?_eq_getElem hi']
        rfl
      · rw [hperm.count_eq]
        rfl
      · rw [hperm.count_eq]
        rfl
      · rw [hperm.count_eq]
        rfl
      · rw [hperm.count_eq]
        rfl
      · obtain ⟨f0, hf0⟩ := perm_exists_get_equiv hperm
        have hdeck : INITIAL_DECK.length = 10 := rfl
        refine ⟨(finCongr hlen.symm).trans (f0.trans (finCongr hdeck)), ?_⟩
        intro i
        have hi' : (i : Nat) < (shuffle rand INITIAL_DECK).length := by
          rw [hperm.length_eq]
          exact i.isLt
        have hf := hf0 ⟨(i : Nat), hi'⟩
        have hfin :
            (((finCongr hlen.symm).trans (f0.trans (finCongr hdeck))) i).val <
              INITIAL_DECK.length :=
          (((finCongr hlen.symm).trans (f0.trans (finCongr hdeck))) i).isLt
        rw [List.getElem?_eq_getElem hi', List.getElem?_eq_getElem hfin]
        simp only [List.get_eq_getElem] at hf
        exact congrArg some hf
    · rw [if_neg h2] at hacc
      exact absurd hacc (by simp)
  · rw [if_neg h1] at hacc
    exact absurd hacc (by simp)

/-- Witness for C1 at a concrete admin client and locked pending room. -/
theorem startDraft_valid_assignment_witness :
    startDraftHandler ⟨ClientRole.ADMIN, some "MAIN"⟩
        { getInitialGameState with areRolesLocked := true } (fun _ => 0) 7 =
      some (startDraftUpdate (fun _ => 0) 7
        { getInitialGameState with areRolesLocked := true }) ∧
    (startDraftUpdate (fun _ => 0) 7
        { getInitialGameState with areRolesLocked := true }).status =
      Status.IN_PROGRESS :=
  ⟨by decide,
    (startDraft_valid_assignment ⟨ClientRole.ADMIN, some "MAIN"⟩
      { getInitialGameState with areRolesLocked := true } _ (fun _ => 0) 7
      (by decide)).2.2.2.2.2.2.2.2.1⟩

theorem startDraftUpdate_inv (rand : Nat → Nat) (now : Nat) (gs : GameState) :
    DraftInv (startDraftUpdate rand now gs) 0 := by
  unfold DraftInv
  refine ⟨?_, ?_, ?_, ?_, ?_, ?_⟩
  · simp [startDraftUpdate]
  · simp [startDraftUpdate]
  · simp [startDraftUpdate]
  · omega
  · intro _
    simp [startDraftUpdate]
  · intro h
    exact absurd h (by decide)

theorem startDraftHandler_some (c : Client) (gs gs0 : GameState)
    (rand : Nat → Nat) (now : Nat)
    (hstart : startDraftHandler c gs rand now = some gs0) :
    gs0 = startDraftUpdate rand now gs := by
  unfold startDraftHandler at hstart
  by_cases h1 : (c.role = ClientRole.JUDGE ∨ c.role = ClientRole.ADMIN) ∧
      c.roomId ≠ none
  · rw [if_pos h1] at hstart
    by_cases h2 : gs.areRolesLocked = true
    · rw [if_pos h2] at hstart
      exact (Option.some.inj hstart).symm
    · rw [if_neg h2] at hstart
      exact absurd hstart (by simp)
  · rw [if_neg h1] at hstart
    exact absurd hstart (by simp)

/-- C2: after any sequence of draft events following an accepted draft
start, with N the number of successful picks (manual or forced):
`revealedSlots` has length exactly N with no duplicate index (so each
successful pick grows it by exactly one), `currentTurn` equals N + 1 while
N < 10, and the status is COMPLETED exactly when N = 10. -/
theorem pick_sequence_invariants (c : Client) (gs gs0 : GameState)
    (rand : Nat → Nat) (now : Nat) (tr : List Step)
    (hstart : startDraftHandler c gs rand now = some gs0) :
    (runTrace tr gs0).1.revealedSlots.length = (runTrace tr gs0).2 ∧
    (runTrace tr gs0).1.revealedSlots.Nodup ∧
    ((runTrace tr gs0).2 < 10 →
      (runTrace tr gs0).1.currentTurn = (runTrace tr gs0).2 + 1) ∧
    ((runTrace tr gs0).1.status = Status.COMPLETED ↔
      (runTrace tr gs0).2 = 10) := by
  have hgs0 := startDraftHandler_some c gs gs0 rand now hstart
  have hinv0 : DraftInv gs0 0 := hgs0 ▸ startDraftUpdate_inv rand now gs
  have hinv := runTrace_inv tr gs0 0 hinv0
  rw [Nat.zero_add] at hinv
  obtain ⟨hlen, hnd, hbd, hn, hlt, heq⟩ := hinv
  refine ⟨hlen, hnd, fun h => (hlt h).1, ?_, ?_⟩
  · intro hc
    by_contra hne
    have hlt10 : (runTrace tr gs0).2 < 10 := Nat.lt_of_le_of_ne hn hne
    have := (hlt hlt10).2
    rw [hc] at this
    exact absurd this (by simp)
  · intro h10
    exact (heq h10).2

/-- Witness for C2: a started draft followed by an unlock and one pick. -/
theorem pick_sequence_invariants_witness :
    startDraftHandler ⟨ClientRole.JUDGE, some "MAIN"⟩
        { getInitialGameState with areRolesLocked := true } (fun _ => 1) 3 =
      some (startDraftUpdate (fun _ => 1) 3
        { getInitialGameState with areRolesLocked := true }) ∧
    ((runTrace [Step.unlockTray, Step.pickCard 4]
        (startDraftUpdate (fun _ => 1) 3
          { getInitialGameState with areRolesLocked := true })).1.status =
        Status.COMPLETED ↔ (runTrace [Step.unlockTray, Step.pickCard 4]
        (startDraftUpdate (fun _ => 1) 3
          { getInitialGameState with areRolesLocked := true })).2 = 10) :=
  ⟨by decide,
    (pick_sequence_invariants ⟨ClientRole.JUDGE, some "MAIN"⟩
      { getInitialGameState with areRolesLocked := true } _ (fun _ => 1) 3
      [Step.unlockTray, Step.pickCard 4] (by decide)).2.2.2⟩

/-- C10: the `PICK_CARD` handler performs no role or seat authorization:
any registry entry carrying a room id — whatever its role, and whichever
seat is on turn — has its pick accepted whenever the game-state guards
(status IN_PROGRESS, tray unlocked, slot unrevealed, slot index 0-9) pass,
the picked role is privately revealed to the requesting client, and the
outcome never depends on the client's role. -/
theorem pickCard_no_authorization (c : Client) (rid : String)
    (rooms : List (String × GameState)) (gs : GameState) (slot : Int)
    (hroom : c.roomId = some rid)
    (hfind : (rooms.find? (fun p => p.1 = rid)).map Prod.snd = some gs)
    (hslot : 0 ≤ slot ∧ slot ≤ 9)
    (hst : gs.status = Status.IN_PROGRESS)
    (htray : gs.isTrayUnlocked = true)
    (hunrev : slot ∉ gs.revealedSlots) :
    (∃ gs2 evs, pickCardHandler c rooms slot = some (gs2, evs) ∧
      Ev.privateRoleReveal (slotLookup gs.slots slot) slot ∈ evs ∧
      gs2.revealedSlots = gs.revealedSlots ++ [slot]) ∧
    (∀ c2 : Client, c2.roomId = c.roomId →
      pickCardHandler c2 rooms slot = pickCardHandler c rooms slot) := by
  constructor
  · have hv : validatePayloadNum 0 9 slot = true := by
      unfold validatePayloadNum
      exact decide_eq_true hslot
    unfold pickCardHandler
    rw [if_pos hv, hroom, Option.some_bind, hfind, Option.some_bind]
    unfold pickCardGS
    rw [if_pos ⟨hst, htray⟩, if_neg hunrev]
    exact ⟨_, _, rfl, List.mem_cons_self _ _, rfl⟩
  · intro c2 hc2
    unfold pickCardHandler
    rw [hc2]

/-- Witness for C10 at a concrete unassigned (non-player, non-judge)
client picking slot 2 in an in-progress room. -/
theorem pickCard_no_authorization_witness :
    (⟨ClientRole.UNASSIGNED, some "MAIN"⟩ : Client).roomId = some "MAIN" ∧
    (∃ gs2 evs,
      pickCardHandler ⟨ClientRole.UNASSIGNED, some "MAIN"⟩
        [("MAIN", { getInitialGameState with
          status := Status.IN_PROGRESS, isTrayUnlocked := true,
          slots := INITIAL_DECK, areRolesLocked := true })] 2 =
        some (gs2, evs) ∧
      Ev.privateRoleReveal (slotLookup INITIAL_DECK 2) 2 ∈ evs ∧
      gs2.revealedSlots = ([] : List Int) ++ [2]) :=
  ⟨rfl,
    ((pickCard_no_authorization ⟨ClientRole.UNASSIGNED, some "MAIN"⟩ "MAIN"
      [("MAIN", { getInitialGameState with
        status := Status.IN_PROGRESS, isTrayUnlocked := true,
        slots := INITIAL_DECK, areRolesLocked := true })]
      { getInitialGameState with
        status := Status.IN_PROGRESS, isTrayUnlocked := true,
        slots := INITIAL_DECK, areRolesLocked := true } 2
      rfl (by decide) (by decide) rfl rfl (by decide)).1)⟩

/-- Concrete in-progress room with the tray unlocked while a card is still
displayed (`isCardRevealed = true`); reachable by `UNLOCK_TRAY` after a
pick and before `MEMORIZED_ROLE`. -/
def cardShownState : GameState :=
  { getInitialGameState with
    status := Status.IN_PROGRESS
    isTrayUnlocked := true
    isCardRevealed := true
    areRolesLocked := true
    slots := INITIAL_DECK }

/-- Counterexample to C3 as stated: with a card still displayed
(`isCardRevealed = true`) a manual `PICK_CARD` is *not* rejected — the
state mutates (slot 0 becomes revealed) and both reveal events are
emitted. -/
theorem pickCard_accepts_while_card_displayed :
    cardShownState.isCardRevealed = true ∧
    (pickCardGS 0 cardShownState).map (fun r => r.1.revealedSlots) =
      some [(0 : Int)] ∧
    (pickCardGS 0 cardShownState).map (fun r => r.2.length) = some 2 ∧
    pickCardGS 0 cardShownState ≠ none := by
  refine ⟨rfl, by decide, by decide, by decide⟩

/-- C3 (amended): a manual `PICK_CARD` is rejected as a pure no-op (result
`none`, and at the trace level the state is returned unchanged with no
events) exactly under the guards the handler checks — status not
IN_PROGRESS, tray locked, or slot already revealed; `isCardRevealed` is
*not* consulted by `PICK_CARD`.  A judge/admin `FORCE_PICK` is additionally
rejected while a card is displayed. -/
theorem pick_rejection_guards (gs : GameState) (slot : Int) (r : Nat) :
    ((gs.status ≠ Status.IN_PROGRESS ∨ gs.isTrayUnlocked = false ∨
        slot ∈ gs.revealedSlots) →
      pickCardGS slot gs = none ∧
      stepGS (Step.pickCard slot) gs = (gs, false)) ∧
    ((gs.status ≠ Status.IN_PROGRESS ∨ gs.isTrayUnlocked = false ∨
        gs.isCardRevealed = true) →
      forcePickGS r gs = none ∧
      stepGS (Step.forcePick r) gs = (gs, false)) := by
  constructor
  · intro h
    have hnone : pickCardGS slot gs = none := by
      unfold pickCardGS
      by_cases hc : gs.status = Status.IN_PROGRESS ∧ gs.isTrayUnlocked = true
      · rw [if_pos hc]
        rcases h with h | h | h
        · exact absurd hc.1 h
        · rw [hc.2] at h
          exact absurd h (by simp)
        · rw [if_pos h]
      · rw [if_neg hc]
    refine ⟨hnone, ?_⟩
    have hv : pickCardValidated slot gs = none := by
      unfold pickCardValidated
      by_cases hval : validatePayloadNum 0 9 slot
      · rw [if_pos hval, hnone]
      · rw [if_neg hval]
    simp [stepGS, hv]
  · intro h
    have hnone : forcePickGS r gs = none := by
      unfold forcePickGS
      by_cases hc : gs.status = Status.IN_PROGRESS ∧ gs.isTrayUnlocked = true ∧
          ¬gs.isCardRevealed = true
      · rcases h with h | h | h
        · exact absurd hc.1 h
        · rw [hc.2.1] at h
          exact absurd h (by simp)
        · exact absurd h hc.2.2
      · rw [if_neg hc]
    refine ⟨hnone, ?_⟩
    simp [stepGS, hnone]

/-- Witness for C3's amended guards: a pending room rejects both kinds of
pick with no state change. -/
theorem pick_rejection_guards_witness :
    (getInitialGameState.status ≠ Status.IN_PROGRESS ∨
      getInitialGameState.isTrayUnlocked = false ∨
      (5 : Int) ∈ getInitialGameState.revealedSlots) ∧
    pickCardGS 5 getInitialGameState = none ∧
    stepGS (Step.pickCard 5) getInitialGameState = (getInitialGameState, false) :=
  ⟨Or.inl (by decide),
    ((pick_rejection_guards getInitialGameState 5 0).1 (Or.inl (by decide))).1,
    ((pick_rejection_guards getInitialGameState 5 0).1 (Or.inl (by decide))).2⟩

/-- On the wire, the `slots` field of a broadcast state is either the real
slot object or the literal placeholder string. -/
inductive SlotsView where
  | visible (slots : List RoleCard)
  | masked (placeholder : String)
deriving DecidableEq, Repr

/-- The literal placeholder the broadcasters substitute for `slots`. -/
def HIDDEN_PLACEHOLDER : String := "\x7bHIDDEN_FOR_TOURNAMENT_INTEGRITY\x7d"

/-- Shape of a `STATE_UPDATE` / `ROOMS_UPDATE` payload: a `GameState` whose
`slots` field may have been replaced by the placeholder string. -/
structure BroadcastState where
  status : Status
  slots : SlotsView
  revealedSlots : List Int
  currentTurn : Nat
  results : List (Nat × ResultEntry)
  isTrayUnlocked : Bool
  isCardRevealed : Bool
  isDebugMode : Bool
  areRolesLocked : Bool
  draftStartTime : Option Nat
  settings : Settings
  clientCounts : ClientCounts
deriving DecidableEq, Repr

/-- The identity embedding of a `GameState` into the wire shape (what "the
full GameState" denotes on the wire). -/
def asBroadcast (gs : GameState) : BroadcastState :=
  { status := gs.status
    slots := SlotsView.visible gs.slots
    revealedSlots := gs.revealedSlots
    currentTurn := gs.currentTurn
    results := gs.results
    isTrayUnlocked := gs.isTrayUnlocked
    isCardRevealed := gs.isCardRevealed
    isDebugMode := gs.isDebugMode
    areRolesLocked := gs.areRolesLocked
    draftStartTime := gs.draftStartTime
    settings := gs.settings
    clientCounts := gs.clientCounts }

/-- Projection `cleanState` of `broadcastState` from `src/socket/broadcasters.js`:
spread of the game state, `isDebugMode` overwritten with the global debug
flag, and `slots` replaced by the placeholder unless global debug is on. -/
def publicCleanState (globalDebugMode : Bool) (gs : GameState) : BroadcastState :=
  { asBroadcast gs with
    isDebugMode := globalDebugMode
    slots := if globalDebugMode then SlotsView.visible gs.slots
      else SlotsView.masked HIDDEN_PLACEHOLDER }

/-- Projection `cleanState` per room of `broadcastToAdmins` (room sanitization): spread
of the game state with `slots` replaced by the placeholder unless global
debug is on (no `isDebugMode` overwrite here). -/
def adminCleanState (globalDebugMode : Bool) (gs : GameState) : BroadcastState :=
  { asBroadcast gs with
    slots := if globalDebugMode then SlotsView.visible gs.slots
      else SlotsView.masked HIDDEN_PLACEHOLDER }

/-- Counterexample to C4 as stated: with global debug off, the public
projection of a room whose own `isDebugMode` flag is `true` is *not* the
full game state with only `slots` masked — `isDebugMode` is overwritten
too. -/
theorem publicProjection_not_only_slots :
    publicCleanState false { getInitialGameState with isDebugMode := true } ≠
      { asBroadcast { getInitialGameState with isDebugMode := true } with
        slots := SlotsView.masked HIDDEN_PLACEHOLDER } := by
  decide

/-- C4 (amended): with the global debug flag off, the public projection is
the full game state with `slots` replaced by the opaque placeholder and
`isDebugMode` overwritten with the (off) global flag; consequently two
room states that differ only in their slot-to-role assignment produce
identical public projections, and identical admin room projections — no
slot-role information reaches non-debug audiences. -/
theorem publicProjection_masks_slots (gs : GameState) (slots2 : List RoleCard) :
    publicCleanState false gs =
      { asBroadcast gs with
        slots := SlotsView.masked HIDDEN_PLACEHOLDER
        isDebugMode := false } ∧
    publicCleanState false { gs with slots := slots2 } =
      publicCleanState false gs ∧
    adminCleanState false { gs with slots := slots2 } =
      adminCleanState false gs := by
  refine ⟨rfl, rfl, rfl⟩

/-- Outcome of a `TOGGLE_ROLE_LOCK` request. -/
inductive ToggleResult where
  | silentReject
  | validationError (msg : String)
  | locked (gs : GameState)
deriving DecidableEq, Repr

/-- JS truthiness of `s.assignedSeat` (absent, `null` and `0` are falsy). -/
def seatTruthy (s : Option Int) : Bool :=
  match s with
  | none => false
  | some v => v ≠ 0

/-- The seated players of a room: sessions in the room with role PLAYER and
a truthy assigned seat (`TOGGLE_ROLE_LOCK` handler). -/
def seatedPlayers (sessions : List SessionRec) (roomId : String) :
    List SessionRec :=
  sessions.filter (fun s =>
    decide (s.roomId = some roomId) && decide (s.role = ClientRole.PLAYER) &&
      seatTruthy s.assignedSeat)

/-- Size of `new Set(seatedPlayers.map(s => s.assignedSeat))`. -/
def uniqueSeatCount (sessions : List SessionRec) (roomId : String) : Nat :=
  (((seatedPlayers sessions roomId).map (fun s => s.assignedSeat)).dedup).length

/-- The validation message of the single-mode seat check. -/
def SINGLE_MODE_ERROR : String :=
  "Single Mode requires exactly 10 players to be assigned unique seats (1-10) before locking."

/-- Handler `TOGGLE_ROLE_LOCK` from `src/socket/handlers.js`: admin-only,
room must exist, rejected while the room is IN_PROGRESS; locking with
single mode on additionally requires the seated players to cover exactly
10 distinct seats, otherwise an `ADMIN_ERROR` with a specific message goes
back to the caller and nothing changes. -/
def toggleRoleLock (caller : Client) (rooms : List (String × GameState))
    (sessions : List SessionRec) (roomId : String) (booleanState : Bool) :
    ToggleResult :=
  match (rooms.find? (fun p => p.1 = roomId)).map Prod.snd with
  | none => .silentReject
  | some gs =>
    if caller.role = ClientRole.ADMIN ∧ gs.status ≠ Status.IN_PROGRESS then
      if booleanState = true ∧ gs.settings.singleMode = true then
        if uniqueSeatCount sessions roomId ≠ 10 then
          .validationError SINGLE_MODE_ERROR
        else .locked { gs with areRolesLocked := booleanState }
      else .locked { gs with areRolesLocked := booleanState }
    else .silentReject

/-- Eleven sessions seated in room MAIN as PLAYER: seats 1..10 plus a
second player on seat 10 (the `ASSIGN_SEAT` handler enforces no seat
uniqueness, so this is reachable). -/
def elevenSeatedSessions : List SessionRec :=
  [⟨some "MAIN", ClientRole.PLAYER, some 1⟩,
   ⟨some "MAIN", ClientRole.PLAYER, some 2⟩,
   ⟨some "MAIN", ClientRole.PLAYER, some 3⟩,
   ⟨some "MAIN", ClientRole.PLAYER, some 4⟩,
   ⟨some "MAIN", ClientRole.PLAYER, some 5⟩,
   ⟨some "MAIN", ClientRole.PLAYER, some 6⟩,
   ⟨some "MAIN", ClientRole.PLAYER, some 7⟩,
   ⟨some "MAIN", ClientRole.PLAYER, some 8⟩,
   ⟨some "MAIN", ClientRole.PLAYER, some 9⟩,
   ⟨some "MAIN", ClientRole.PLAYER, some 10⟩,
   ⟨some "MAIN", ClientRole.PLAYER, some 10⟩]

/-- Counterexample to C7 as stated, in both respects the amendment
changes: (i) an admin's lock request on a COMPLETED room (status not
PENDING) is accepted; (ii) in single mode, a room with *eleven* seated
players whose seats are 1..10 with seat 10 duplicated — not "exactly 10
players holding unique assigned seats" — has its lock accepted rather
than rejected with the validation error, because the handler only counts
the *distinct* seat values. -/
theorem toggleRoleLock_claim_counterexamples :
    (toggleRoleLock ⟨ClientRole.ADMIN, some "MAIN"⟩
        [("MAIN", { getInitialGameState with status := Status.COMPLETED })]
        [] "MAIN" true =
      ToggleResult.locked { getInitialGameState with
        status := Status.COMPLETED, areRolesLocked := true }) ∧
    (({ getInitialGameState with status := Status.COMPLETED } :
      GameState).status ≠ Status.PENDING) ∧
    ((seatedPlayers elevenSeatedSessions "MAIN").length = 11) ∧
    ¬((seatedPlayers elevenSeatedSessions "MAIN").map
        (fun s => s.assignedSeat)).Nodup ∧
    (toggleRoleLock ⟨ClientRole.ADMIN, some "MAIN"⟩
        [("MAIN", { getInitialGameState with
          settings := { singleMode := true } })]
        elevenSeatedSessions "MAIN" true =
      ToggleResult.locked { getInitialGameState with
        settings := { singleMode := true }, areRolesLocked := true }) := by
  refine ⟨by decide, by decide, by decide, by decide, by decide⟩

/-- C7 (amended): `TOGGLE_ROLE_LOCK` to `true` is admin-only and accepted
only while the room is not IN_PROGRESS (PENDING or COMPLETED); with single
mode enabled it requires the room's seated players to cover exactly 10
distinct assigned seats, otherwise the request yields the specific
validation message for the initiating admin and no room state changes
(`areRolesLocked` stays as it was). -/
theorem toggleRoleLock_guards (caller : Client)
    (rooms : List (String × GameState)) (sessions : List SessionRec)
    (roomId : String) (b : Bool) (gs : GameState)
    (hfind : (rooms.find? (fun p => p.1 = roomId)).map Prod.snd = some gs) :
    (¬(caller.role = ClientRole.ADMIN ∧ gs.status ≠ Status.IN_PROGRESS) →
      toggleRoleLock caller rooms sessions roomId b = ToggleResult.silentReject) ∧
    (caller.role = ClientRole.ADMIN → gs.status ≠ Status.IN_PROGRESS →
      b = true → gs.settings.singleMode = true →
      uniqueSeatCount sessions roomId ≠ 10 →
      toggleRoleLock caller rooms sessions roomId b =
        ToggleResult.validationError SINGLE_MODE_ERROR) ∧
    (caller.role = ClientRole.ADMIN → gs.status ≠ Status.IN_PROGRESS →
      (¬(b = true ∧ gs.settings.singleMode = true) ∨
        uniqueSeatCount sessions roomId = 10) →
      toggleRoleLock caller rooms sessions roomId b =
        ToggleResult.locked { gs with areRolesLocked := b }) := by
  unfold toggleRoleLock
  rw [hfind]
  dsimp only
  refine ⟨?_, ?_, ?_⟩
  · intro h
    rw [if_neg h]
  · intro h1 h2 h3 h4 h5
    rw [if_pos ⟨h1, h2⟩, if_pos ⟨h3, h4⟩, if_pos h5]
  · intro h1 h2 h3
    rw [if_pos ⟨h1, h2⟩]
    rcases h3 with h3 | h3
    · rw [if_neg h3]
    · by_cases h4 : b = true ∧ gs.settings.singleMode = true
      · rw [if_pos h4, if_neg (by simpa using h3)]
      · rw [if_neg h4]

/-- Witness for C7's amended guards: single-mode lock with no seated
players is rejected with the validation message. -/
theorem toggleRoleLock_guards_witness :
    toggleRoleLock ⟨ClientRole.ADMIN, some "MAIN"⟩
        [("MAIN", { getInitialGameState with
          settings := { singleMode := true } })] [] "MAIN" true =
      ToggleResult.validationError SINGLE_MODE_ERROR :=
  (toggleRoleLock_guards ⟨ClientRole.ADMIN, some "MAIN"⟩
    [("MAIN", { getInitialGameState with settings := { singleMode := true } })]
    [] "MAIN" true
    { getInitialGameState with settings := { singleMode := true } }
    (by decide)).2.1 rfl (by decide) rfl rfl (by decide)

/-- What the per-socket middleware can do with an inbound packet:
dispatch it, reject it by passing an `Error` to `next` (the packet is
dropped and the socket emits an error event), or disconnect the socket
(`socket.disconnect(true)`, which the source uses only in the
setup-incomplete guard, never in the rate limiter). -/
inductive PacketOutcome where
  | dispatched
  | rejected (errMsg : String)
  | disconnected
deriving DecidableEq, Repr

/-- Constant `MAX_MESSAGES_PER_SECOND` from `src/socket/handlers.js`. -/
def MAX_MESSAGES_PER_SECOND : Nat := 20

/-- The `socket.use` rate-limit middleware: increment the per-connection
counter; past the ceiling, pass a rate-limit `Error` to `next`
(dropping the packet). -/
def rateLimitMiddleware (messageCount : Nat) : Nat × PacketOutcome :=
  (messageCount + 1,
    if messageCount + 1 > MAX_MESSAGES_PER_SECOND then
      PacketOutcome.rejected "Rate limit exceeded."
    else PacketOutcome.dispatched)

/-- The `throttleTimer` callback (`setInterval(..., 1000)`): the counter is
reset to zero at every fixed 1-second window. -/
def throttleReset (_messageCount : Nat) : Nat := 0

/-- Outcomes of `n` packets arriving within one window, starting from a
given counter value. -/
def runPackets : Nat → Nat → List PacketOutcome
  | 0, _ => []
  | n + 1, count =>
    (rateLimitMiddleware count).2 :: runPackets n (rateLimitMiddleware count).1

theorem runPackets_length (n : Nat) : ∀ count : Nat,
    (runPackets n count).length = n := by
  induction n with
  | zero => intro count; rfl
  | succ m ih =>
    intro count
    simp [runPackets, ih]

theorem runPackets_get (n : Nat) : ∀ (count i : Nat), i < n →
    (runPackets n count)[i]? =
      some (if count + i + 1 > MAX_MESSAGES_PER_SECOND then
        PacketOutcome.rejected "Rate limit exceeded."
      else PacketOutcome.dispatched) := by
  induction n with
  | zero => intro count i hi; omega
  | succ n ih =>
    intro count i hi
    cases i with
    | zero => simp [runPackets, rateLimitMiddleware]
    | succ i =>
      have hi' : i < n := Nat.lt_of_succ_lt_succ hi
      have := ih (count + 1) i hi'
      simp only [runPackets, rateLimitMiddleware, List.getElem?_cons_succ]
      rw [this]
      have harith : count + 1 + i + 1 = count + (i + 1) + 1 := by omega
      rw [harith]

/-- Counterexample to C8 as stated: the 21st packet of a window is answered
with a rate-limit *error* (packet dropped), and no packet outcome in the
whole window is a disconnection — the source's rate limiter never calls
`socket.disconnect`. -/
theorem rateLimit_does_not_disconnect :
    (runPackets 21 (throttleReset 0))[20]? =
      some (PacketOutcome.rejected "Rate limit exceeded.") ∧
    PacketOutcome.disconnected ∉ runPackets 21 (throttleReset 0) := by
  refine ⟨by decide, by decide⟩

/-- C8 (amended): the per-connection counter is reset to zero at each fixed
1-second window; within a window started fresh, packet `i` (0-based) is
dispatched exactly while `i < 20` and otherwise rejected with the
rate-limit error — the packet is dropped but the connection is never
disconnected. -/
theorem rateLimit_window_spec (n i : Nat) (hi : i < n) :
    throttleReset n = 0 ∧
    (runPackets n (throttleReset n))[i]? =
      some (if i + 1 > MAX_MESSAGES_PER_SECOND then
        PacketOutcome.rejected "Rate limit exceeded."
      else PacketOutcome.dispatched) ∧
    PacketOutcome.disconnected ∉ runPackets n (throttleReset n) := by
  refine ⟨rfl, ?_, ?_⟩
  · have := runPackets_get n 0 i hi
    simpa using this
  · intro hmem
    rw [show throttleReset n = 0 from rfl] at hmem
    obtain ⟨k, hk⟩ := List.get_of_mem hmem
    have hlen : (k : Nat) < n := by
      have h1 := k.isLt
      have h2 := runPackets_length n 0
      omega
    have hk' : (runPackets n 0)[(k : Nat)]? = some PacketOutcome.disconnected := by
      rw [List.getElem?_eq_getElem k.isLt, ← List.get_eq_getElem, hk]
    rw [runPackets_get n 0 (k : Nat) hlen] at hk'
    by_cases hc : 0 + (k : Nat) + 1 > MAX_MESSAGES_PER_SECOND
    · rw [if_pos hc] at hk'
      exact absurd (Option.some.inj hk') (by simp)
    · rw [if_neg hc] at hk'
      exact absurd (Option.some.inj hk') (by simp)

/-- Witness for C8's amended window behaviour at the 21st packet. -/
theorem rateLimit_window_spec_witness :
    (20 : Nat) < 21 ∧
    (runPackets 21 (throttleReset 21))[20]? =
      some (if 20 + 1 > MAX_MESSAGES_PER_SECOND then
        PacketOutcome.rejected "Rate limit exceeded."
      else PacketOutcome.dispatched) :=
  ⟨by decide, (rateLimit_window_spec 21 20 (by decide)).2.1⟩

/-- JS string split on the colon character, on a character list. -/
def splitOnColon : List Char → List (List Char)
  | [] => [[]]
  | c :: rest =>
    if c = ':' then [] :: splitOnColon rest
    else
      match splitOnColon rest with
      | [] => [[c]]
      | h :: t => (c :: h) :: t

theorem splitOnColon_ne_nil (l : List Char) : splitOnColon l ≠ [] := by
  induction l with
  | nil => simp [splitOnColon]
  | cons c rest ih =>
    unfold splitOnColon
    by_cases hc : c = ':'
    · rw [if_pos hc]
      simp
    · rw [if_neg hc]
      cases h : splitOnColon rest with
      | nil => simp
      | cons hd tl => simp

theorem splitOnColon_append (a rest : List Char) (h : ':' ∉ a) :
    splitOnColon (a ++ ':' :: rest) = a :: splitOnColon rest := by
  induction a with
  | nil =>
    simp [splitOnColon]
  | cons c a2 ih =>
    have hc : c ≠ ':' := fun hc => h (hc ▸ List.mem_cons_self c a2)
    have ha2 : ':' ∉ a2 := fun hm => h (List.mem_cons_of_mem c hm)
    simp only [List.cons_append]
    conv_lhs => rw [splitOnColon]
    rw [if_neg hc, ih ha2]

theorem splitOnColon_no_colon (a : List Char) (h : ':' ∉ a) :
    splitOnColon a = [a] := by
  induction a with
  | nil => rfl
  | cons c a2 ih =>
    have hc : c ≠ ':' := fun hc => h (hc ▸ List.mem_cons_self c a2)
    have ha2 : ':' ∉ a2 := fun hm => h (List.mem_cons_of_mem c hm)
    unfold splitOnColon
    rw [if_neg hc, ih ha2]

theorem splitOnColon_three (a b c : List Char)
    (ha : ':' ∉ a) (hb : ':' ∉ b) (hc : ':' ∉ c) :
    splitOnColon (a ++ ':' :: (b ++ ':' :: c)) = [a, b, c] := by
  rw [splitOnColon_append a _ ha, splitOnColon_append b _ hb,
    splitOnColon_no_colon c hc]

/-- Function `encryptPayload(payloadArgs, key)` from `src/server/core/crypto.js`:
serialize, CBC-encrypt under a fresh iv, authenticate `ivHex:ciphertext`
with an HMAC under the same key, and emit `iv:ciphertext:hmac`.  The node
crypto primitives are parameters: `serialize` is `JSON.stringify`,
`aesEnc ivHex plain` the hex CBC ciphertext, `hmacF` the hex HMAC under
the connection key. -/
def encryptPayloadM {α : Type} (serialize : α → List Char)
    (aesEnc : List Char → List Char → List Char)
    (hmacF : List Char → List Char) (ivHex : List Char) (p : α) : List Char :=
  ivHex ++ ':' :: (aesEnc ivHex (serialize p) ++
    ':' :: hmacF (ivHex ++ ':' :: aesEnc ivHex (serialize p)))

/-- Function `decryptPayload(encryptedString, key)` from `src/server/core/crypto.js`:
split on `:` (exactly 3 parts required), recompute the HMAC over
`ivHex:ciphertext` and compare (a mismatch or length error yields `null`),
then decrypt and JSON-parse (any throw yields `null`). -/
def decryptPayloadM {α : Type} (deserialize : List Char → Option α)
    (aesDec : List Char → List Char → Option (List Char))
    (hmacF : List Char → List Char) (wire : List Char) : Option α :=
  match splitOnColon wire with
  | [ivHex, ciphertext, hmacHex] =>
    if hmacHex = hmacF (ivHex ++ ':' :: ciphertext) then
      (aesDec ivHex ciphertext).bind deserialize
    else none
  | _ => none

/-- C6: with the correct key, decrypting an encrypted payload returns the
original object; any wire whose HMAC does not match the `(iv, ciphertext)`
pair — in particular a tampered ciphertext carrying the original HMAC,
absent an HMAC collision — decrypts to nothing.  The cipher/HMAC/JSON
primitives are node library functions, taken as parameters with their
contracts as hypotheses (hex output contains no `:`; CBC decryption
inverts encryption under the same key and iv; parsing inverts
serialization). -/
theorem encryptDecrypt_payload {α : Type} (serialize : α → List Char)
    (deserialize : List Char → Option α)
    (aesEnc : List Char → List Char → List Char)
    (aesDec : List Char → List Char → Option (List Char))
    (hmacF : List Char → List Char) (ivHex : List Char) (p : α)
    (hiv : ':' ∉ ivHex)
    (hct : ':' ∉ aesEnc ivHex (serialize p))
    (hmac : ':' ∉ hmacF (ivHex ++ ':' :: aesEnc ivHex (serialize p)))
    (haes : aesDec ivHex (aesEnc ivHex (serialize p)) = some (serialize p))
    (hjson : deserialize (serialize p) = some p) :
    decryptPayloadM deserialize aesDec hmacF
      (encryptPayloadM serialize aesEnc hmacF ivHex p) = some p ∧
    (∀ ivH ct mac, ':' ∉ ivH → ':' ∉ ct → ':' ∉ mac →
      mac ≠ hmacF (ivH ++ ':' :: ct) →
      decryptPayloadM deserialize aesDec hmacF
        (ivH ++ ':' :: (ct ++ ':' :: mac)) = none) ∧
    (∀ ct2, ':' ∉ ct2 →
      hmacF (ivHex ++ ':' :: aesEnc ivHex (serialize p)) ≠
        hmacF (ivHex ++ ':' :: ct2) →
      decryptPayloadM deserialize aesDec hmacF
        (ivHex ++ ':' :: (ct2 ++
          ':' :: hmacF (ivHex ++ ':' :: aesEnc ivHex (serialize p)))) = none) := by
  refine ⟨?_, ?_, ?_⟩
  · unfold encryptPayloadM decryptPayloadM
    rw [splitOnColon_three _ _ _ hiv hct hmac]
    dsimp only
    rw [if_pos rfl, haes]
    simpa using hjson
  · intro ivH ct mac hiv2 hct2 hmac2 hne
    unfold decryptPayloadM
    rw [splitOnColon_three _ _ _ hiv2 hct2 hmac2]
    dsimp only
    rw [if_neg hne]
  · intro ct2 hct2 hne
    unfold decryptPayloadM
    rw [splitOnColon_three _ _ _ hiv hct2 hmac]
    dsimp only
    rw [if_neg hne]

/-- Witness for C6 at concrete (toy) primitive instantiations satisfying
the library contracts on the given input. -/
theorem encryptDecrypt_payload_witness :
    (':' ∉ ['i', 'v']) ∧
    decryptPayloadM (fun s => if s = ['d'] then some 42 else none)
      (fun _ c => some c) (fun _ => ['m'])
      (encryptPayloadM (fun _ : Nat => ['d']) (fun _ pl => pl)
        (fun _ => ['m']) ['i', 'v'] 42) = some 42 :=
  ⟨by decide,
    (encryptDecrypt_payload (fun _ : Nat => ['d'])
      (fun s => if s = ['d'] then some 42 else none)
      (fun _ pl => pl) (fun _ c => some c) (fun _ => ['m']) ['i', 'v'] 42
      (by decide) (by decide) (by decide) (by decide) (by decide)).1⟩

/-- Byte strings on disk (one JS `Buffer`). -/
abbrev Bytes := List Nat

/-- Constant `DATA_SCHEMA_VERSION` from `src/server/core/state.js`. -/
def DATA_SCHEMA_VERSION : Nat := 2

/-- Constant `DATA_SHARDS` from `src/server/core/state.js`. -/
def DATA_SHARDS : Nat := 4

/-- Constant `PARITY_SHARDS` from `src/server/core/state.js`. -/
def PARITY_SHARDS : Nat := 2

/-- Constant `TOTAL_SHARDS = DATA_SHARDS + PARITY_SHARDS`. -/
def TOTAL_SHARDS : Nat := DATA_SHARDS + PARITY_SHARDS

/-- A room's game state as found inside a decrypted JSON snapshot: every
field may be absent (older schema versions lack the newer fields). -/
structure ParsedGameState where
  status : Option Status
  slots : Option (List RoleCard)
  revealedSlots : Option (List Int)
  currentTurn : Option Nat
  results : Option (List (Nat × ResultEntry))
  isTrayUnlocked : Option Bool
  isCardRevealed : Option Bool
  isDebugMode : Option Bool
  areRolesLocked : Option Bool
  draftStartTime : Option (Option Nat)
  settings : Option Settings
  clientCounts : Option ClientCounts
deriving DecidableEq, Repr

/-- A room entry of a snapshot. -/
structure ParsedRoom where
  gameState : ParsedGameState
deriving DecidableEq, Repr

/-- The decrypted snapshot layout written by `saveState` (the `version`
and `globalSettings` fields carry no game semantics and are omitted). -/
structure PersistedData where
  schemaVersion : Nat
  admin : Option (String × String)
  rooms : List (String × ParsedRoom)
  sessions : List (String × SessionRec)
  globalDebugMode : Bool
deriving DecidableEq, Repr

/-- The snapshot `saveState` serializes: current schema version plus the
in-memory admin credential, rooms and sessions. -/
def mkSnapshot (admin : Option (String × String))
    (roomsS : List (String × ParsedRoom))
    (sessionsS : List (String × SessionRec)) (debug : Bool) : PersistedData :=
  { schemaVersion := DATA_SCHEMA_VERSION, admin := admin, rooms := roomsS,
    sessions := sessionsS, globalDebugMode := debug }

/-- The spread `\x7b ...defaultState, ...gs \x7d` of `upgradeDataSchema`
(including its two explicit deep-merge lines): every field absent from the
stored game state is filled with its `getInitialGameState` default. -/
def mergeGameState (g : ParsedGameState) : ParsedGameState where
  status := some (g.status.getD getInitialGameState.status)
  slots := some (g.slots.getD getInitialGameState.slots)
  revealedSlots := some (g.revealedSlots.getD getInitialGameState.revealedSlots)
  currentTurn := some (g.currentTurn.getD getInitialGameState.currentTurn)
  results := some (g.results.getD getInitialGameState.results)
  isTrayUnlocked := some (g.isTrayUnlocked.getD getInitialGameState.isTrayUnlocked)
  isCardRevealed := some (g.isCardRevealed.getD getInitialGameState.isCardRevealed)
  isDebugMode := some (g.isDebugMode.getD getInitialGameState.isDebugMode)
  areRolesLocked := some (g.areRolesLocked.getD getInitialGameState.areRolesLocked)
  draftStartTime := some (g.draftStartTime.getD getInitialGameState.draftStartTime)
  settings := some (g.settings.getD getInitialGameState.settings)
  clientCounts := some (g.clientCounts.getD getInitialGameState.clientCounts)

/-- Function `upgradeDataSchema(parsed)` from `src/server/core/state.js`:
`parsed.schemaVersion || 1` (the `|| 1` turns a missing/zero version into
1); snapshots older than the current version get every room's game state
merged over the defaults and the version bumped; current snapshots pass
through unchanged. -/
def upgradeDataSchema (parsed : PersistedData) : PersistedData :=
  if (if parsed.schemaVersion = 0 then 1 else parsed.schemaVersion) <
      DATA_SCHEMA_VERSION then
    { parsed with
      rooms := parsed.rooms.map (fun pr => (pr.1, ⟨mergeGameState pr.2.gameState⟩))
      schemaVersion := DATA_SCHEMA_VERSION }
  else parsed

/-- Payload buffer zero-padded to a multiple of `DATA_SHARDS`
(`Buffer.alloc(paddedLength)` with the payload copied in). -/
def padTo4 (payload : Bytes) : Bytes :=
  payload ++ List.replicate
    ((((payload.length + DATA_SHARDS - 1) / DATA_SHARDS) * DATA_SHARDS) -
      payload.length) 0

/-- The `i`-th data shard: `shardsArray.slice(i * shardSize, (i+1) * shardSize)`. -/
def shardOf (clean : Bytes) (i : Nat) : Bytes :=
  (clean.drop (i * (clean.length / DATA_SHARDS))).take
    (clean.length / DATA_SHARDS)

/-- The `DATA_SHARDS` data shards of a payload. -/
def dataShardsOf (payload : Bytes) : List Bytes :=
  (List.range DATA_SHARDS).map (shardOf (padTo4 payload))

/-- Function `saveState()` from `src/server/core/state.js`: encrypt the snapshot
(a `null` from the cipher aborts the save), pad, cut into `DATA_SHARDS`
equal shards, let the Reed-Solomon engine (`rsParity`) append
`PARITY_SHARDS` parity shards, and write the shard files atomically.
Returns the six shard files. -/
def saveState (encS : PersistedData → Option Bytes)
    (rsParity : List Bytes → List Bytes) (admin : Option (String × String))
    (roomsS : List (String × ParsedRoom))
    (sessionsS : List (String × SessionRec)) (debug : Bool) :
    Option (List Bytes) :=
  (encS (mkSnapshot admin roomsS sessionsS debug)).map
    (fun payload => dataShardsOf payload ++ rsParity (dataShardsOf payload))

/-- Model of the replace of trailing NUL bytes (regex on the payload string). -/
def stripTrailingZeros (l : Bytes) : Bytes :=
  (l.reverse.dropWhile (fun b => b == 0)).reverse

/-- How a `loadState` run ends.  `criticalFailure` is the loud
`CRITICAL FAILURE: Only N shards found` path; `emptyNoShards` is the
silent `availableCount === 0` early return. -/
inductive LoadOutcome where
  | emptyNoShards
  | criticalFailure (available : Nat)
  | reconstructFailed
  | decryptFailed
  | schemaMismatch
  | restored (admin : Option (String × String))
      (rooms : List (String × ParsedRoom))
      (sessions : List (String × SessionRec))
deriving DecidableEq, Repr

/-- Outcome of `loadState` plus whether `saveState()` was invoked during
the load (the source calls it only after a successful shard
reconstruction). -/
structure LoadResult where
  outcome : LoadOutcome
  savedDuringLoad : Bool
deriving DecidableEq, Repr

/-- Number of existing shard files. -/
def availableCount (files : List (Option Bytes)) : Nat :=
  (files.filter Option.isSome).length

/-- The `shardSize` variable after the read loop: the length of the *last*
existing shard file (the loop overwrites it per found file). -/
def lastShardSize (files : List (Option Bytes)) : Nat :=
  (((files.filterMap id).getLast?).map List.length).getD 0

/-- Decrypt-and-restore tail of `loadState`: concatenate the data region,
strip NUL padding, decrypt, upgrade the schema, and accept the snapshot
when its (upgraded) version matches. -/
def processShards (decS : Bytes → Option PersistedData)
    (shards : List Bytes) (savedFlag : Bool) : LoadResult :=
  match decS (stripTrailingZeros ((shards.take DATA_SHARDS).flatten)) with
  | none => ⟨.decryptFailed, savedFlag⟩
  | some parsed =>
    if (upgradeDataSchema parsed).schemaVersion = DATA_SCHEMA_VERSION then
      ⟨.restored (upgradeDataSchema parsed).admin (upgradeDataSchema parsed).rooms
        (upgradeDataSchema parsed).sessions, savedFlag⟩
    else ⟨.schemaMismatch, savedFlag⟩

/-- Function `loadState()` from `src/server/core/state.js` (sharded path): read the
shard files; zero present → silent return; fewer than `DATA_SHARDS` →
loud critical failure; some missing but at least `DATA_SHARDS` present →
Reed-Solomon reconstruction (followed by a `saveState()` call), then
decrypt; all present → decrypt directly. -/
def loadState (decS : Bytes → Option PersistedData)
    (rsReconstruct : List (Option Bytes) → Option (List Bytes))
    (files : List (Option Bytes)) : LoadResult :=
  if availableCount files = 0 then ⟨.emptyNoShards, false⟩
  else if availableCount files < DATA_SHARDS then
    ⟨.criticalFailure (availableCount files), false⟩
  else if availableCount files < TOTAL_SHARDS then
    match rsReconstruct files with
    | none => ⟨.reconstructFailed, false⟩
    | some full => processShards decS full true
  else
    processShards decS
      (files.map (fun f => f.getD (List.replicate (lastShardSize files) 0))) false

theorem chunksFlatten : ∀ (m : Nat) (l : Bytes) (k : Nat), l.length = m * k →
    ((List.range m).map (fun i => (l.drop (i * k)).take k)).flatten = l := by
  intro m
  induction m with
  | zero =>
    intro l k h
    simp only [Nat.zero_mul] at h
    simp [List.length_eq_zero.mp h]
  | succ n ih =>
    intro l k h
    rw [List.range_succ_eq_map]
    simp only [List.map_cons, List.map_map, List.flatten_cons, Nat.zero_mul,
      List.drop_zero]
    have hcomp : ((fun i => (l.drop (i * k)).take k) ∘ Nat.succ) =
        (fun i => (((l.drop k).drop (i * k)).take k)) := by
      funext i
      simp only [Function.comp_apply]
      rw [List.drop_drop, Nat.succ_mul, Nat.add_comm (i * k) k]
    rw [hcomp, ih (l.drop k) k ?_]
    · exact List.take_append_drop k l
    · rw [List.length_drop, h, Nat.succ_mul]
      omega

theorem stripTrailingZeros_pad (payload : Bytes) (m : Nat)
    (hnz : ∀ b ∈ payload, b ≠ 0) :
    stripTrailingZeros (payload ++ List.replicate m 0) = payload := by
  unfold stripTrailingZeros
  rw [List.reverse_append, List.reverse_replicate]
  have hrep : List.dropWhile (fun b => b == 0) (List.replicate m 0) = [] := by
    induction m with
    | zero => rfl
    | succ j ihj => simp [List.replicate_succ, List.dropWhile_cons, ihj]
  rw [List.dropWhile_append, hrep]
  simp only [List.isEmpty_nil, if_true]
  cases hrev : payload.reverse with
  | nil =>
    have hpl : payload = [] := by
      have := congrArg List.reverse hrev
      simpa using this
    simp [hpl]
  | cons hd t =>
    have hmem : hd ∈ payload := by
      have : hd ∈ payload.reverse := hrev ▸ List.mem_cons_self hd t
      exact List.mem_reverse.mp this
    have hne : (hd == 0) = false := by
      simp [hnz hd hmem]
    rw [List.dropWhile_cons, if_neg (by simp [hne]), ← hrev,
      List.reverse_reverse]

theorem availableCount_map_some (l : List Bytes) :
    availableCount (l.map some) = l.length := by
  unfold availableCount
  rw [List.filter_map]
  have hcomp : (Option.isSome ∘ (some : Bytes → Option Bytes)) = fun _ => true := by
    funext x
    rfl
  rw [hcomp]
  simp

theorem map_getD_map_some (l : List Bytes) (z : Bytes) :
    (l.map some).map (fun f => f.getD z) = l := by
  rw [List.map_map]
  have hcomp : ((fun f => f.getD z) ∘ (some : Bytes → Option Bytes)) = id := by
    funext x
    rfl
  rw [hcomp, List.map_id]

theorem dataShardsOf_length (p : Bytes) : (dataShardsOf p).length = DATA_SHARDS := by
  simp [dataShardsOf]

theorem padTo4_length (p : Bytes) :
    (padTo4 p).length = ((p.length + DATA_SHARDS - 1) / DATA_SHARDS) * DATA_SHARDS := by
  simp only [padTo4, List.length_append, List.length_replicate, DATA_SHARDS]
  omega

theorem dataShardsOf_flatten (p : Bytes) :
    (dataShardsOf p).flatten = padTo4 p := by
  unfold dataShardsOf shardOf
  apply chunksFlatten
  have := padTo4_length p
  simp only [DATA_SHARDS] at this ⊢
  omega

theorem take_dataShards (p : Bytes) (parity : List Bytes) :
    (dataShardsOf p ++ parity).take DATA_SHARDS = dataShardsOf p := by
  rw [← dataShardsOf_length p]
  exact List.take_left (dataShardsOf p) parity

theorem upgradeDataSchema_current (admin : Option (String × String))
    (roomsS : List (String × ParsedRoom))
    (sessionsS : List (String × SessionRec)) (debug : Bool) :
    upgradeDataSchema (mkSnapshot admin roomsS sessionsS debug) =
      mkSnapshot admin roomsS sessionsS debug := by
  unfold upgradeDataSchema
  dsimp only [mkSnapshot]
  rw [if_neg (by decide)]

theorem processShards_restores (decS : Bytes → Option PersistedData)
    (payload : Bytes) (parity : List Bytes) (admin : Option (String × String))
    (roomsS : List (String × ParsedRoom))
    (sessionsS : List (String × SessionRec)) (debug : Bool) (flag : Bool)
    (hdec : decS payload = some (mkSnapshot admin roomsS sessionsS debug))
    (hnz : ∀ b ∈ payload, b ≠ 0) :
    processShards decS (dataShardsOf payload ++ parity) flag =
      ⟨LoadOutcome.restored admin roomsS sessionsS, flag⟩ := by
  have harg : stripTrailingZeros (((dataShardsOf payload ++ parity).take
      DATA_SHARDS).flatten) = payload := by
    rw [take_dataShards, dataShardsOf_flatten]
    unfold padTo4
    exact stripTrailingZeros_pad payload _ hnz
  unfold processShards
  rw [harg, hdec]
  dsimp only
  rw [upgradeDataSchema_current]
  dsimp only [mkSnapshot]
  rw [if_pos rfl]

/-- C5 (amended): after a successful `saveState`, `loadState` with all six
shard files present restores the identical logical state (admin
credential, rooms, sessions) without re-saving; with at least
`DATA_SHARDS` of the six present (up to `PARITY_SHARDS` missing) the
Reed-Solomon engine reconstructs the shards and the identical state is
restored; with more than `PARITY_SHARDS` missing but at least one shard
present, the load fails with the loud critical-failure signal and
restores nothing.  (With *zero* shards present the source returns
silently — see the counterexample.)  The storage cipher and the
Reed-Solomon engine are external parameters; their contracts are the
hypotheses. -/
theorem saveState_loadState_roundtrip
    (encS : PersistedData → Option Bytes) (decS : Bytes → Option PersistedData)
    (rsParity : List Bytes → List Bytes)
    (rsReconstruct : List (Option Bytes) → Option (List Bytes))
    (admin : Option (String × String)) (roomsS : List (String × ParsedRoom))
    (sessionsS : List (String × SessionRec)) (debug : Bool)
    (payload : Bytes) (shards : List Bytes) (files : List (Option Bytes))
    (hpay : encS (mkSnapshot admin roomsS sessionsS debug) = some payload)
    (hdec : decS payload = some (mkSnapshot admin roomsS sessionsS debug))
    (hnz : ∀ b ∈ payload, b ≠ 0)
    (hsave : saveState encS rsParity admin roomsS sessionsS debug = some shards)
    (hplen : (rsParity (dataShardsOf payload)).length = PARITY_SHARDS) :
    loadState decS rsReconstruct (shards.map some) =
      ⟨LoadOutcome.restored admin roomsS sessionsS, false⟩ ∧
    (List.Forall₂ (fun f s => f = none ∨ f = some s) files shards →
      DATA_SHARDS ≤ availableCount files →
      availableCount files < TOTAL_SHARDS →
      rsReconstruct files = some shards →
      loadState decS rsReconstruct files =
        ⟨LoadOutcome.restored admin roomsS sessionsS, true⟩) ∧
    (List.Forall₂ (fun f s => f = none ∨ f = some s) files shards →
      1 ≤ availableCount files → availableCount files < DATA_SHARDS →
      loadState decS rsReconstruct files =
        ⟨LoadOutcome.criticalFailure (availableCount files), false⟩) := by
  have hshards : shards = dataShardsOf payload ++ rsParity (dataShardsOf payload) := by
    unfold saveState at hsave
    rw [hpay, Option.map_some'] at hsave
    exact (Option.some.inj hsave).symm
  refine ⟨?_, ?_, ?_⟩
  · have hav : availableCount (shards.map some) = 6 := by
      rw [availableCount_map_some, hshards, List.length_append,
        dataShardsOf_length, hplen]
      decide
    unfold loadState
    rw [hav]
    rw [if_neg (by decide), if_neg (by decide), if_neg (by decide),
      map_getD_map_some, hshards]
    exact processShards_restores decS payload _ admin roomsS sessionsS debug
      false hdec hnz
  · intro _hmask h4 h6 hrs
    have hav0 : availableCount files ≠ 0 := by
      simp only [DATA_SHARDS] at h4
      omega
    unfold loadState
    rw [if_neg hav0, if_neg (Nat.not_lt.mpr h4), if_pos h6, hrs]
    dsimp only
    rw [hshards]
    exact processShards_restores decS payload _ admin roomsS sessionsS debug
      true hdec hnz
  · intro _hmask h1 h4
    have hav0 : availableCount files ≠ 0 := by omega
    unfold loadState
    rw [if_neg hav0, if_pos h4]

/-- Concrete toy instantiations of the external storage primitives,
satisfying their contracts on the witness inputs below. -/
def encS0 : PersistedData → Option Bytes := fun _ => some [1, 2, 3, 4]

/-- Toy storage decryption: the inverse of `encS0` on the witness state. -/
def decS0 : Bytes → Option PersistedData :=
  fun _ => some (mkSnapshot none [] [] false)

/-- Toy parity computation producing `PARITY_SHARDS` one-byte shards. -/
def rsParity0 : List Bytes → List Bytes := fun _ => [[5], [6]]

/-- Toy reconstruction returning the full witness shard set. -/
def rsRec0 : List (Option Bytes) → Option (List Bytes) :=
  fun _ => some [[1], [2], [3], [4], [5], [6]]

/-- Witness for C5: a concrete save of the empty session state and its
all-shards-present load. -/
theorem saveState_loadState_roundtrip_witness :
    saveState encS0 rsParity0 none [] [] false =
      some [[1], [2], [3], [4], [5], [6]] ∧
    loadState decS0 rsRec0 (([[1], [2], [3], [4], [5], [6]] :
        List Bytes).map some) =
      ⟨LoadOutcome.restored none [] [], false⟩ :=
  ⟨by decide,
    (saveState_loadState_roundtrip encS0 decS0 rsParity0 rsRec0 none [] []
      false [1, 2, 3, 4] [[1], [2], [3], [4], [5], [6]] []
      (by decide) (by decide) (by decide) (by decide) (by decide)).1⟩

/-- Counterexample to C5 as stated: with *all six* shard files missing
(more than the parity count), the load returns through the silent
`availableCount === 0` early-return — the `emptyNoShards` outcome, not
the loud `criticalFailure` signal — so "fails explicitly" does not hold at
this input (nothing is restored either way). -/
theorem loadState_all_missing_silent :
    saveState encS0 rsParity0 none [] [] false =
      some [[1], [2], [3], [4], [5], [6]] ∧
    loadState decS0 rsRec0 [none, none, none, none, none, none] =
      ⟨LoadOutcome.emptyNoShards, false⟩ :=
  ⟨by decide, by decide⟩

/-- C9 (amended): on load, a snapshot whose schema version is older than
the current version 2 is passed through `upgradeDataSchema`, which bumps
the version and fills the newly introduced game-state fields (`settings`,
`clientCounts`, and every other absent field) with their
`getInitialGameState` defaults before the snapshot is accepted; the
upgraded snapshot is *not* re-persisted on the all-shards-present load
path (`savedDuringLoad = false` — a save happens during load only after a
shard reconstruction, and it writes the pre-restore in-memory state). -/
theorem schema_upgrade_fills_defaults (parsed : PersistedData)
    (decS : Bytes → Option PersistedData)
    (rsReconstruct : List (Option Bytes) → Option (List Bytes))
    (shards : List Bytes)
    (hold : (if parsed.schemaVersion = 0 then 1 else parsed.schemaVersion) <
      DATA_SCHEMA_VERSION)
    (hlen6 : shards.length = TOTAL_SHARDS)
    (hdec : decS (stripTrailingZeros ((shards.take DATA_SHARDS).flatten)) =
      some parsed) :
    (upgradeDataSchema parsed).schemaVersion = DATA_SCHEMA_VERSION ∧
    (∀ rid room, (rid, room) ∈ parsed.rooms →
      (rid, (⟨mergeGameState room.gameState⟩ : ParsedRoom)) ∈
        (upgradeDataSchema parsed).rooms ∧
      (mergeGameState room.gameState).settings =
        some (room.gameState.settings.getD getInitialGameState.settings) ∧
      (mergeGameState room.gameState).clientCounts =
        some (room.gameState.clientCounts.getD
          getInitialGameState.clientCounts)) ∧
    loadState decS rsReconstruct (shards.map some) =
      ⟨LoadOutcome.restored (upgradeDataSchema parsed).admin
        (upgradeDataSchema parsed).rooms (upgradeDataSchema parsed).sessions,
        false⟩ := by
  have hver : (upgradeDataSchema parsed).schemaVersion = DATA_SCHEMA_VERSION := by
    unfold upgradeDataSchema
    rw [if_pos hold]
  have hrooms : (upgradeDataSchema parsed).rooms =
      parsed.rooms.map (fun pr => (pr.1, ⟨mergeGameState pr.2.gameState⟩)) := by
    unfold upgradeDataSchema
    rw [if_pos hold]
  refine ⟨hver, ?_, ?_⟩
  · intro rid room hmem
    refine ⟨?_, rfl, rfl⟩
    rw [hrooms]
    exact List.mem_map_of_mem
      (fun pr => (pr.1, ({ gameState := mergeGameState pr.2.gameState } :
        ParsedRoom))) hmem
  · have hav : availableCount (shards.map some) = 6 := by
      rw [availableCount_map_some, hlen6]
      decide
    unfold loadState
    rw [hav]
    rw [if_neg (by decide), if_neg (by decide), if_neg (by decide),
      map_getD_map_some]
    unfold processShards
    rw [hdec]
    dsimp only
    rw [if_pos hver]

/-- A stored game state from schema v1: every newer field absent. -/
def emptyParsedGameState : ParsedGameState :=
  ⟨none, none, none, none, none, none, none, none, none, none, none, none⟩

/-- A schema-v1 snapshot with one room and no stored `settings` or
`clientCounts`. -/
def v1Snapshot : PersistedData :=
  ⟨1, none, [("R", ⟨emptyParsedGameState⟩)], [], false⟩

/-- Counterexample to C9 as stated: loading a schema-v1 snapshot with all
six shard files present accepts the upgraded snapshot but does *not*
re-persist it (`savedDuringLoad = false` — `loadState` only calls
`saveState` on the shard-reconstruction path). -/
theorem loadState_upgrade_without_repersist :
    loadState (fun _ => some v1Snapshot) (fun _ => none)
      (([[7], [7], [7], [7], [7], [7]] : List Bytes).map some) =
      ⟨LoadOutcome.restored none
        [("R", ⟨mergeGameState emptyParsedGameState⟩)] [], false⟩ := by
  decide

/-- Witness for C9's amended upgrade behaviour at the v1 snapshot. -/
theorem schema_upgrade_fills_defaults_witness :
    ((if v1Snapshot.schemaVersion = 0 then 1 else v1Snapshot.schemaVersion) <
      DATA_SCHEMA_VERSION) ∧
    (upgradeDataSchema v1Snapshot).schemaVersion = DATA_SCHEMA_VERSION :=
  ⟨by decide,
    (schema_upgrade_fills_defaults v1Snapshot (fun _ => some v1Snapshot)
      (fun _ => none) [[7], [7], [7], [7], [7], [7]]
      (by decide) (by decide) (by decide)).1⟩
